import Mathlib

/-!
Shallow embedding of the DDB-file core of `abipy/dfpt/ddb.py` (header
parsing, q-point extraction, mesh inference `guessed_ngqpt`, and the
Born-effective-charge assembler `Becs`), together with proofs settling
the specification claims about that code.

Python string primitives (`strip`, `split`, `startswith`, `replace`,
`float`, `int`) are re-implemented over `List Char` so that every
definition evaluates by kernel reduction.  Python exceptions are
modelled by the inductive `PyErr`; fallible code returns `Except PyErr`.
The source is Python 2 (`map` is eager and returns a list), which is the
semantics embedded here.
-/

/-- Python exception kinds raised by the embedded code.  The spec's abstract
error taxonomy maps onto these: its ParseError corresponds to the
`valueError` raised at the numeric-parse sites, ShapeMismatchError to the
`assertionError` of `Becs.__init__`, and InvalidInputError to the
`valueError` that numpy raises for a reduction over a zero-size array.
`nameError` models Python's NameError/UnboundLocalError (a name referenced
but never bound), `indexError` an out-of-range sequence subscript. -/
inductive PyErr
  | valueError
  | indexError
  | nameError
  | assertionError
deriving DecidableEq, Repr

/-- Whitespace characters recognised by Python's `str.strip()` / `str.split()`
with no arguments: space, tab, newline, carriage return, vertical tab,
form feed. -/
def pyWs (c : Char) : Bool :=
  c = ' ' || c = '\t' || c = '\n' || c = '\r' || c = Char.ofNat 11 || c = Char.ofNat 12

/-- Python `str.strip()` on a character list: drop leading and trailing
whitespace. -/
def stripChars (cs : List Char) : List Char :=
  ((cs.dropWhile pyWs).reverse.dropWhile pyWs).reverse

/-- Python `str.strip()`. -/
def pyStrip (s : String) : String := String.mk (stripChars s.data)

/-- Tokenizer worker for Python `str.split()` with no argument: accumulate
the current token (reversed) in `cur`, finished tokens in `acc`. -/
def splitWsGo (cur : List Char) (acc : List (List Char)) : List Char → List (List Char)
  | [] => if cur = [] then acc else acc ++ [cur.reverse]
  | c :: cs =>
    if pyWs c then
      if cur = [] then splitWsGo [] acc cs
      else splitWsGo [] (acc ++ [cur.reverse]) cs
    else splitWsGo (c :: cur) acc cs

/-- Python `str.split()` with no argument: split on whitespace runs,
discarding empty tokens. -/
def pySplit (s : String) : List String :=
  (splitWsGo [] [] s.data).map String.mk

/-- Decide whether `nd` is a prefix of `hay` (Python `str.startswith`). -/
def isPrefixCh : List Char → List Char → Bool
  | [], _ => true
  | _ :: _, [] => false
  | a :: as, b :: bs => a = b && isPrefixCh as bs

/-- Python `s.startswith(pre)`. -/
def pyStartsWith (s pre : String) : Bool := isPrefixCh pre.data s.data

/-- Decide whether `nd` occurs as a contiguous substring of the character
list (Python's `nd in s`). -/
def hasSubCh (nd : List Char) : List Char → Bool
  | [] => isPrefixCh nd []
  | c :: cs => isPrefixCh nd (c :: cs) || hasSubCh nd cs

/-- Python `nd in s` (substring containment). -/
def pyHasSub (s nd : String) : Bool := hasSubCh nd.data s.data

/-- Worker for Python `str.replace`, structurally recursive on a fuel
argument: every step consumes at least one character of the haystack, so
fuel equal to the haystack length makes the `fuel = 0` fallback
unreachable. -/
def replaceChGo (nd rp : List Char) : ℕ → List Char → List Char
  | _, [] => []
  | 0, hay => hay
  | fuel + 1, c :: rest =>
    if isPrefixCh nd (c :: rest) = true ∧ nd ≠ [] then
      rp ++ replaceChGo nd rp fuel (rest.drop (nd.length - 1))
    else
      c :: replaceChGo nd rp fuel rest

/-- Python `s.replace(nd, rp)` on character lists: replace every
non-overlapping occurrence of `nd` (left to right) by `rp`.  An empty
needle never occurs in the embedded code; for totality it is treated as
matching nowhere. -/
def replaceCh (nd rp hay : List Char) : List Char :=
  replaceChGo nd rp hay.length hay

/-- Python `s.replace(nd, rp)`. -/
def pyReplace (s nd rp : String) : String := String.mk (replaceCh nd.data rp.data s.data)

/-- Python `c in s` for a single character. -/
def pyHasChar (s : String) (c : Char) : Bool := s.data.contains c

/-- Numeric value of a decimal digit character. -/
def digToNat (c : Char) : ℕ := c.toNat - 48

/-- Value of a decimal digit run (most significant first). -/
def natOfDigits (ds : List Char) : ℕ := ds.foldl (fun a c => 10 * a + digToNat c) 0

/-- Split a character list into its leading run of decimal digits and the
rest. -/
def spanDigits (cs : List Char) : List Char × List Char :=
  (cs.takeWhile Char.isDigit, cs.dropWhile Char.isDigit)

/-- Parse the exponent part of a Python float literal (after the `e`/`E`):
optional sign followed by at least one digit, consuming the whole input. -/
def expValCh (cs : List Char) : Option ℤ :=
  let p : ℤ × List Char :=
    match cs with
    | '+' :: r => (1, r)
    | '-' :: r => (-1, r)
    | r => (1, r)
  let ds := spanDigits p.2
  if ds.1 = [] ∨ ds.2 ≠ [] then none
  else some (p.1 * (natOfDigits ds.1 : ℤ))

/-- Python `float(tok)` on the token grammar the DDB code feeds it
(optional sign, digits with optional fractional part, optional `e`/`E`
exponent).  Special spellings such as `inf` or `nan`, which never occur in
DDB files, are not modelled and yield `none` (ValueError). -/
def pyFloatCh (cs : List Char) : Option ℚ :=
  let p : ℚ × List Char :=
    match cs with
    | '+' :: r => (1, r)
    | '-' :: r => (-1, r)
    | r => (1, r)
  let ip := spanDigits p.2
  let fpRest : List Char × List Char :=
    match ip.2 with
    | '.' :: r => spanDigits r
    | r => ([], r)
  if ip.1 = [] ∧ fpRest.1 = [] then none
  else
    let mant : ℚ := (natOfDigits ip.1 : ℚ) + (natOfDigits fpRest.1 : ℚ) / (10 : ℚ) ^ fpRest.1.length
    match fpRest.2 with
    | [] => some (p.1 * mant)
    | e :: r =>
      if e = 'e' ∨ e = 'E' then
        match expValCh r with
        | some ex => some (p.1 * mant * (10 : ℚ) ^ ex)
        | none => none
      else none

/-- Python `float(tok)`. -/
def pyFloatOf (s : String) : Option ℚ := pyFloatCh s.data

/-- Python `int(tok)`: optional sign followed by digits only, consuming the
whole token. -/
def pyIntCh (cs : List Char) : Option ℤ :=
  let p : ℤ × List Char :=
    match cs with
    | '+' :: r => (1, r)
    | '-' :: r => (-1, r)
    | r => (1, r)
  let ds := spanDigits p.2
  if ds.1 = [] ∨ ds.2 ≠ [] then none
  else some (p.1 * (natOfDigits ds.1 : ℤ))

/-- Python `int(tok)`. -/
def pyIntOf (s : String) : Option ℤ := pyIntCh s.data

/-- Eager `map` over a list of fallible computations, aborting at the first
error: Python 2's `map(parse, tokens)` where `parse` may raise. -/
def mapExc {α β : Type} (f : α → Except PyErr β) : List α → Except PyErr (List β)
  | [] => Except.ok []
  | x :: xs =>
    match f x with
    | Except.error e => Except.error e
    | Except.ok y =>
      match mapExc f xs with
      | Except.error e => Except.error e
      | Except.ok ys => Except.ok (y :: ys)

/-! ## Q-point extractor (`DdbFile._read_qpoints`) -/

/-- Worker for the scan loop of `_read_qpoints`: for each raw line, `line =
line.strip()`; if `line.startswith("qpt") and line not in seen`, record the
stripped line in `seen` and append `line.replace("qpt", "")` to `toks`.
Returns the final `(seen, toks)`. -/
def qptScanGo (seen toks : List String) : List String → List String × List String
  | [] => (seen, toks)
  | l :: ls =>
    let t := pyStrip l
    if pyStartsWith t "qpt" = true ∧ t ∉ seen then
      qptScanGo (t :: seen) (toks ++ [pyReplace t "qpt" ""]) ls
    else
      qptScanGo seen toks ls

/-- The scan loop of `_read_qpoints` started from empty state. -/
def qptScan (lines : List String) : List String × List String :=
  qptScanGo [] [] lines

/-- A reduced-coordinate 3-vector. -/
abbrev V3 := ℚ × ℚ × ℚ

/-- Parse one recorded candidate `tok` of `_read_qpoints`: `nums =
map(float, tok.split())` (ValueError when a token is not a float), then
`qpoints.append(nums[:3]); weights.append(nums[3])` — `nums[3]` raises
IndexError when fewer than four numbers are present.  The weight is parsed
and then discarded. -/
def parseQline (tok : String) : Except PyErr V3 :=
  match mapExc (fun t =>
      match pyFloatOf t with
      | some q => Except.ok q
      | none => Except.error PyErr.valueError) (pySplit tok) with
  | Except.error e => Except.error e
  | Except.ok (a :: b :: c :: _ :: _) => Except.ok (a, b, c)
  | Except.ok _ => Except.error PyErr.indexError

/-- `DdbFile._read_qpoints`: scan all lines, deduplicate candidate records by
their stripped text through the `seen` set, then parse each recorded token
into a 3-vector (the trailing weight is read and discarded). -/
def readQpoints (lines : List String) : Except PyErr (List V3) :=
  mapExc parseQline (qptScan lines).2

/-- Modelled from the spec (refinement target for the deduplication claim):
keep the first occurrence of every string, preserving first-seen order. -/
def dedupFS : List String → List String
  | [] => []
  | x :: xs => x :: dedupFS (xs.filter (fun y => decide (y ≠ x)))
termination_by l => l.length
decreasing_by
  simp only [List.length_cons]
  exact Nat.lt_succ_of_le (List.length_filter_le _ _)

/-- The candidate records of a file: the stripped lines whose text starts
with the `qpt` marker, in file order, duplicates included. -/
def qptCand (lines : List String) : List String :=
  (lines.map pyStrip).filter (fun t => pyStartsWith t "qpt")

/-! ## Header parser (`DdbFile._parse_header`) -/

/-- A number stored in the header mapping: a Python `int` or `float`. -/
inductive PyNum
  | intv (n : ℤ)
  | floatv (q : ℚ)
deriving DecidableEq, Repr

/-- Whether a stored header number is a Python `int`. -/
def PyNum.isInt : PyNum → Bool
  | PyNum.intv _ => true
  | PyNum.floatv _ => false

/-- Whether a stored header number is a Python `float`. -/
def PyNum.isFloat : PyNum → Bool
  | PyNum.intv _ => false
  | PyNum.floatv _ => true

/-- Parse one token with the parser the header loop selected
(`parse = float if "." in tokens[0] else int`): `float` when `hasDot`,
else `int`; an unparsable token raises ValueError. -/
def parseTok (hasDot : Bool) (t : String) : Except PyErr PyNum :=
  if hasDot then
    match pyFloatOf t with
    | some q => Except.ok (PyNum.floatv q)
    | none => Except.error PyErr.valueError
  else
    match pyIntOf t with
    | some n => Except.ok (PyNum.intv n)
    | none => Except.error PyErr.valueError

/-- The per-line value parse of `_parse_header`: the parser is chosen by
whether the line's FIRST token contains a decimal point, and then applied
eagerly to every token of the line (Python 2 `map`). -/
def parseRun : List String → Except PyErr (List PyNum)
  | [] => Except.ok []
  | t0 :: rest => mapExc (parseTok (pyHasChar t0 '.')) (t0 :: rest)

/-- Loop state of `_parse_header`: the `version` local (unbound until a
line containing "Version" is seen) and the `keyvals` association list. -/
structure HeadSt where
  version : Option ℤ
  keyvals : List (String × List PyNum)
deriving DecidableEq, Repr

/-- Branch of `_parse_header` reached via `except ValueError` ("we have a
new key"): `key = tokens.pop(0)`, then `parse` is chosen from the new
`tokens[0]` (IndexError when the line had a single token) and applied to
the remaining tokens; a ValueError raised here is inside the handler and
propagates. -/
def newKeyBranch (st : HeadSt) (key : String) (rest : List String) : Except PyErr HeadSt :=
  match rest with
  | [] => Except.error PyErr.indexError
  | _ :: _ =>
    match parseRun rest with
    | Except.ok nums => Except.ok ⟨st.version, st.keyvals ++ [(key, nums)]⟩
    | Except.error e => Except.error e

/-- Key/value processing of `_parse_header` for a stripped non-blank line at
index `i ≥ 6` (source lines 89-101): rewrite `D+`/`D-` exponents to
`E+`/`E-`, split into tokens, then try `float(tokens[0])`; on success the
line is numeric continuation data appended to `keyvals[-1]` (IndexError
when no key is open, evaluated before the token map; a ValueError from the
token map is caught and diverts to the new-key branch); on failure the
line opens a new key. -/
def headLineKV (st : HeadSt) (line0 : String) : Except PyErr HeadSt :=
  let line := pyReplace (pyReplace line0 "D+" "E+") "D-" "E-"
  match pySplit line with
  | [] => Except.error PyErr.indexError
  | t0 :: rest =>
    match pyFloatOf t0 with
    | some _ =>
      match st.keyvals.getLast? with
      | none => Except.error PyErr.indexError
      | some kv =>
        match parseRun (t0 :: rest) with
        | Except.ok nums =>
          Except.ok ⟨st.version, st.keyvals.dropLast ++ [(kv.1, kv.2 ++ nums)]⟩
        | Except.error _ => newKeyBranch st t0 rest
    | none => newKeyBranch st t0 rest

/-- First sentinel ending the header section. -/
def sentinel1 : String := "Description of the potentials (KB energies)"

/-- Second sentinel ending the header section. -/
def sentinel2 : String := "No information on the potentials yet"

/-- The version extraction of `_parse_header` (source lines 78-80): on a
stripped line containing "Version", `version = int(line.split()[-1])`
rebinds the version local (ValueError when the last token is not an
integer); any other line leaves the state unchanged. -/
def versionStep (st : HeadSt) (line : String) : Except PyErr HeadSt :=
  if pyHasSub line "Version" = true then
    match (pySplit line).getLast? with
    | none => Except.error PyErr.indexError
    | some tk =>
      match pyIntOf tk with
      | some v => Except.ok (⟨some v, st.keyvals⟩ : HeadSt)
      | none => Except.error PyErr.valueError
  else Except.ok st

/-- The line loop of `_parse_header` (source lines 75-101), with `i` the
raw enumerate index: strip; skip blanks; on any line containing "Version"
set `version = int(line.split()[-1])`; stop at a sentinel line; for lines
with `i ≥ 6` run the key/value processing. -/
def headLoop (st : HeadSt) (i : ℕ) : List String → Except PyErr HeadSt
  | [] => Except.ok st
  | l :: ls =>
    let line := pyStrip l
    if line = "" then headLoop st (i + 1) ls
    else
      match versionStep st line with
      | Except.error e => Except.error e
      | Except.ok st1 =>
        if line = sentinel1 ∨ line = sentinel2 then Except.ok st1
        else if 6 ≤ i then
          match headLineKV st1 line with
          | Except.error e => Except.error e
          | Except.ok st2 => headLoop st2 (i + 1) ls
        else headLoop st1 (i + 1) ls

/-- A header value after collapse: a scalar when exactly one value was
accumulated for the key, else the full list. -/
inductive HVal
  | scalar (v : PyNum)
  | arr (vs : List PyNum)
deriving DecidableEq, Repr

/-- The scalar/array collapse of `_parse_header` (source line 105). -/
def collapse (vs : List PyNum) : HVal :=
  match vs with
  | [v] => HVal.scalar v
  | _ => HVal.arr vs

/-- The header record built by `_parse_header` up to source line 107: the
mandatory version and the collapsed key/value mapping.  The subsequent
array-reshape step (source lines 111-126) consumes this record; no claim
refers to it. -/
structure Header where
  version : ℤ
  fields : List (String × HVal)
deriving DecidableEq, Repr

/-- `DdbFile._parse_header` through source line 107: run the line loop from
the start of the file; afterwards `h = AttrDict(version=version)` reads the
`version` local, raising NameError (unbound local) when no line contained
"Version"; each key's accumulated values are then collapsed. -/
def parseHeaderCore (lines : List String) : Except PyErr Header :=
  match headLoop ⟨none, []⟩ 0 lines with
  | Except.error e => Except.error e
  | Except.ok st =>
    match st.version with
    | none => Except.error PyErr.nameError
    | some v => Except.ok ⟨v, st.keyvals.map (fun kv => (kv.1, collapse kv.2))⟩

/-! ## Mesh inference engine (`DdbFile.guessed_ngqpt`) -/

/-- A 3x3 matrix as three rows. -/
abbrev Mat3 := V3 × V3 × V3

/-- Dot product of two 3-vectors. -/
def dotV (a b : V3) : ℚ := a.1 * b.1 + a.2.1 * b.2.1 + a.2.2 * b.2.2

/-- Modelled from the spec: `op.rotate_k(q, wrap_tows=False)` lives in
`abipy.core.symmetries`, which is outside the packaged sources; the spec
describes it as applying the symmetry rotation to the q-point without
wrapping into the canonical cell, so it is modelled as the plain
matrix-vector product. -/
def rotateK (R : Mat3) (q : V3) : V3 :=
  (dotV R.1 q, dotV R.2.1 q, dotV R.2.2 q)

/-- The identity rotation. -/
def idRot : Mat3 := ((1, 0, 0), (0, 1, 0), (0, 0, 1))

/-- The union of the stars of the q-points (source lines 180-185): every
symmetry rotation applied to every q-point, outer loop over q-points. -/
def starUnion (rots : List Mat3) (qpts : List V3) : List V3 :=
  (qpts.map (fun q => rots.map (fun R => rotateK R q))).flatten

/-- Minimum of two extended rationals, `none` denoting the `np.inf` that
replaced an exact-zero coordinate. -/
def minOpt : Option ℚ → Option ℚ → Option ℚ
  | none, b => b
  | some a, none => some a
  | some a, some b => some (min a b)

/-- Per-axis minimum of `np.abs(all_qpoints)` after the zeros of each point
were replaced by `np.inf` (source lines 188-193): a zero coordinate
contributes infinity (`none`), any other coordinate its absolute value. -/
def smallOf (xs : List ℚ) : Option ℚ :=
  xs.foldl (fun acc x => minOpt acc (if x = 0 then none else some |x|)) none

/-- `np.rint`: round to the nearest integer, ties to the nearest even
integer. -/
def rintQ (q : ℚ) : ℤ :=
  if q - ⌊q⌋ < 1 / 2 then ⌊q⌋
  else if (1 : ℚ) / 2 < q - ⌊q⌋ then ⌊q⌋ + 1
  else if ⌊q⌋ % 2 = 0 then ⌊q⌋ else ⌊q⌋ + 1

/-- One axis of `guessed_ngqpt` (source lines 193-199): take the axis
minimum `smalls`, replace an exact zero by 1, invert (with `1/inf = 0`),
round with `np.rint`, and replace a rounded 0 by 1. -/
def axisGuess (xs : List ℚ) : ℤ :=
  let s := smallOf xs
  let s2 := s.map (fun x => if x = 0 then 1 else x)
  let inv : ℚ :=
    match s2 with
    | none => 0
    | some x => 1 / x
  let n := rintQ inv
  if n = 0 then 1 else n

/-- `DdbFile.guessed_ngqpt`, at the interface the spec fixes for it: the
q-point list (reduced coordinates) and the structure's symmetry rotations.
When the star union is empty, `np.abs(all_qpoints).min(axis=0)` raises
ValueError (reduction over a zero-size array); otherwise the three axis
guesses are returned as integers. -/
def guessedNgqpt (rots : List Mat3) (qpts : List V3) : Except PyErr (ℤ × ℤ × ℤ) :=
  let allq := starUnion rots qpts
  if allq = [] then Except.error PyErr.valueError
  else
    Except.ok (axisGuess (allq.map (fun v => v.1)),
               axisGuess (allq.map (fun v => v.2.1)),
               axisGuess (allq.map (fun v => v.2.2)))

/-! ## Born-effective-charge assembler (`Becs`) -/

/-- Transpose of a 3x3 matrix of rows. -/
def trMat (m : Mat3) : Mat3 :=
  ((m.1.1, m.2.1.1, m.2.2.1),
   (m.1.2.1, m.2.1.2.1, m.2.2.2.1),
   (m.1.2.2, m.2.1.2.2, m.2.2.2.2))

/-- The `Becs` object: the bound structure enters `__init__` only through
its atom count (`len(structure)`), so it is represented by that count. -/
structure BecsT where
  natom : ℕ
  becs : List Mat3
deriving DecidableEq, Repr

/-- `Becs.__init__`: `assert len(becs_arr) == len(structure)` (an
AssertionError when the raw block's leading length differs from the atom
count), then store each per-atom block, transposed when `order == "f"`. -/
def mkBecs (becsArr : List Mat3) (natom : ℕ) (order : String) : Except PyErr BecsT :=
  if becsArr.length = natom then
    Except.ok ⟨natom, becsArr.map (fun m => if order = "f" then trMat m else m)⟩
  else Except.error PyErr.assertionError

/-- The zero 3x3 matrix. -/
def zeroMat : Mat3 := ((0, 0, 0), (0, 0, 0), (0, 0, 0))

/-- Componentwise sum of two 3-vectors. -/
def addV (a b : V3) : V3 := (a.1 + b.1, a.2.1 + b.2.1, a.2.2 + b.2.2)

/-- Componentwise sum of two 3x3 matrices. -/
def addMat (a b : Mat3) : Mat3 :=
  (addV a.1 b.1, addV a.2.1 b.2.1, addV a.2.2 b.2.2)

/-- `Becs.check_sumrule` (source lines 431-434): it computes
`becs_atomsum = self.becs.sum(axis=0)` and prints a banner, but the next
statement is `print(bec_atomsum)` — a name that is never bound (the
computed local is spelled `becs_atomsum`) — so every invocation raises
NameError after the banner. -/
def check_sumrule (b : BecsT) : Except PyErr Unit :=
  let _becs_atomsum := b.becs.foldl addMat zeroMat
  Except.error PyErr.nameError

/-! ## Concrete inputs used by counterexamples and witnesses -/

/-- A minimal header file: a version line, five further preamble lines, a
key line `foo 1` and a numeric continuation line `2.5 3` whose first token
carries a decimal point. -/
def demoC5 : List String :=
  ["+DDB, Version number 100401", "", "", "", "", "", "foo 1", "2.5 3"]

/-- A file with a six-line preamble and one key line but no line containing
"Version". -/
def demoC6 : List String :=
  ["x", "x", "x", "x", "x", "x", "foo 1"]

/-- A demo per-atom 3x3 block. -/
def demoMat : Mat3 := ((1, 2, 3), (4, 5, 6), (7, 8, 9))

/-! ## General lemmas -/

/-- An eager fallible map that succeeds preserves length. -/
theorem mapExc_ok_length {α β : Type} (f : α → Except PyErr β) :
    ∀ (xs : List α) (ys : List β), mapExc f xs = Except.ok ys → ys.length = xs.length := by
  intro xs
  induction xs with
  | nil =>
    intro ys h
    simp only [mapExc] at h
    cases h
    rfl
  | cons x xs ih =>
    intro ys h
    simp only [mapExc] at h
    cases hfx : f x with
    | error e => rw [hfx] at h; cases h
    | ok y =>
      rw [hfx] at h
      cases hrec : mapExc f xs with
      | error e => rw [hrec] at h; cases h
      | ok ys0 =>
        rw [hrec] at h
        cases h
        simp [ih ys0 hrec]

/-- Every output of a successful eager fallible map is the successful image
of some input. -/
theorem mapExc_ok_mem {α β : Type} (f : α → Except PyErr β) :
    ∀ (xs : List α) (ys : List β), mapExc f xs = Except.ok ys →
      ∀ y ∈ ys, ∃ x ∈ xs, f x = Except.ok y := by
  intro xs
  induction xs with
  | nil =>
    intro ys h y hy
    simp only [mapExc] at h
    cases h
    simp at hy
  | cons x xs ih =>
    intro ys h y hy
    simp only [mapExc] at h
    cases hfx : f x with
    | error e => rw [hfx] at h; cases h
    | ok y0 =>
      rw [hfx] at h
      cases hrec : mapExc f xs with
      | error e => rw [hrec] at h; cases h
      | ok ys0 =>
        rw [hrec] at h
        cases h
        rcases List.mem_cons.mp hy with hy0 | hmem
        · exact ⟨x, List.mem_cons_self x xs, hy0 ▸ hfx⟩
        · rcases ih ys0 hrec y hmem with ⟨x', hx', hfx'⟩
          exact ⟨x', List.mem_cons_of_mem x hx', hfx'⟩

/-- The per-axis minimum accumulator only ever holds non-negative values. -/
theorem smallOf_nonneg (xs : List ℚ) :
    ∀ (acc : Option ℚ), (∀ a, acc = some a → 0 ≤ a) →
      ∀ b, xs.foldl (fun acc x => minOpt acc (if x = 0 then none else some |x|)) acc = some b →
        0 ≤ b := by
  induction xs with
  | nil =>
    intro acc hacc b hb
    exact hacc b hb
  | cons x xs ih =>
    intro acc hacc b hb
    simp only [List.foldl_cons] at hb
    refine ih _ ?_ b hb
    intro a ha
    by_cases hx : x = 0
    · rw [if_pos hx] at ha
      cases acc with
      | none => simp [minOpt] at ha
      | some c =>
        have hca : c = a := by simpa [minOpt] using ha
        exact hca ▸ hacc c rfl
    · rw [if_neg hx] at ha
      cases acc with
      | none =>
        have hca : |x| = a := by simpa [minOpt] using ha
        exact hca ▸ abs_nonneg x
      | some c =>
        have hca : min c |x| = a := by simpa [minOpt] using ha
        exact hca ▸ le_min (hacc c rfl) (abs_nonneg x)

/-- Rounding a non-negative rational with `np.rint` gives a non-negative
integer. -/
theorem rintQ_nonneg (q : ℚ) (hq : 0 ≤ q) : 0 ≤ rintQ q := by
  have hf : (0 : ℤ) ≤ ⌊q⌋ := Int.floor_nonneg.mpr hq
  unfold rintQ
  split_ifs <;> omega

/-- Each axis of the inferred mesh is at least one. -/
theorem axisGuess_ge_one (xs : List ℚ) : 1 ≤ axisGuess xs := by
  unfold axisGuess
  cases hs : smallOf xs with
  | none =>
    have h0 : rintQ 0 = 0 := by
      unfold rintQ
      norm_num
    simp [hs, h0]
  | some x =>
    have hx : 0 ≤ x := smallOf_nonneg xs none (by intro a ha; cases ha) x hs
    have hx2 : (0 : ℚ) < if x = 0 then 1 else x := by
      split_ifs with h
      · norm_num
      · exact lt_of_le_of_ne hx (Ne.symm h)
    have hinv : (0 : ℚ) ≤ 1 / (if x = 0 then 1 else x) := le_of_lt (by positivity)
    have hr : 0 ≤ rintQ (1 / (if x = 0 then 1 else x)) := rintQ_nonneg _ hinv
    simp only [hs, Option.map_some']
    set n := rintQ (1 / (if x = 0 then 1 else x)) with hn
    split_ifs <;> omega

/-! ## Claims about the mesh inference engine -/

/-- C1: for a structure whose symmetry set contains only the identity
rotation and a q-point list containing the single point (0.25, 0, 0), the
mesh inference `guessed_ngqpt` returns the integer 3-vector (4, 1, 1): the
first axis equals round(1/0.25) = 4, and the other two axes, whose
coordinates are all exactly zero, are mapped to 1 via the zero-to-infinity
replacement (1/inf = 0) followed by the rounded-zero fallback-to-1
guard. -/
theorem c1_quarter_point_mesh :
    guessedNgqpt [idRot] [((1 : ℚ) / 4, 0, 0)] = Except.ok (4, 1, 1) := by
  with_unfolding_all rfl

/-- C2: for every input where the q-point list is empty, the mesh inference
fails — with the ValueError numpy raises for the per-axis minimum over a
zero-size array, which is the InvalidInputError of the spec's error
taxonomy — rather than returning a mesh value. -/
theorem c2_empty_qpoint_list_fails (rots : List Mat3) :
    guessedNgqpt rots [] = Except.error PyErr.valueError := rfl

/-- Witness for C2 at the concrete symmetry set containing only the
identity rotation. -/
theorem c2_empty_qpoint_list_fails_witness :
    guessedNgqpt [idRot] [] = Except.error PyErr.valueError :=
  c2_empty_qpoint_list_fails [idRot]

/-- C10: for every non-empty q-point list on which the mesh inference
completes, every component of the returned mesh guess is an integer greater
than or equal to 1: the per-axis minima are taken over absolute values, and
the smalls-zero-to-1 and rounded-zero-to-1 guards keep every axis
positive. -/
theorem c10_mesh_components_positive (rots : List Mat3) (qpts : List V3) (g : ℤ × ℤ × ℤ)
    (hne : qpts ≠ []) (hok : guessedNgqpt rots qpts = Except.ok g) :
    1 ≤ g.1 ∧ 1 ≤ g.2.1 ∧ 1 ≤ g.2.2 := by
  simp only [guessedNgqpt] at hok
  split at hok
  · cases hok
  · cases hok
    exact ⟨axisGuess_ge_one _, axisGuess_ge_one _, axisGuess_ge_one _⟩

/-- Witness for C10 at the identity-symmetry single-point input. -/
theorem c10_mesh_components_positive_witness :
    1 ≤ ((4, 1, 1) : ℤ × ℤ × ℤ).1 ∧ 1 ≤ ((4, 1, 1) : ℤ × ℤ × ℤ).2.1 ∧
      1 ≤ ((4, 1, 1) : ℤ × ℤ × ℤ).2.2 :=
  c10_mesh_components_positive [idRot] [((1 : ℚ) / 4, 0, 0)] (4, 1, 1)
    (by simp) (by with_unfolding_all rfl)

/-! ## Claims about the Born-effective-charge assembler -/

/-- C7: for every raw Born-effective-charge block whose leading length
differs from the number of atoms in the bound structure, the tensor
assembler fails with the AssertionError of `assert len(becs_arr) ==
len(structure)` — the ShapeMismatchError of the spec's error taxonomy —
and constructs no tensor object. -/
theorem c7_becs_shape_mismatch (arr : List Mat3) (natom : ℕ) (order : String)
    (h : arr.length ≠ natom) :
    mkBecs arr natom order = Except.error PyErr.assertionError := by
  unfold mkBecs
  rw [if_neg h]

/-- Witness for C7: an empty block against a one-atom structure. -/
theorem c7_becs_shape_mismatch_witness :
    mkBecs [] 1 "c" = Except.error PyErr.assertionError :=
  c7_becs_shape_mismatch [] 1 "c" (by decide)

/-- C8: when the tensor assembler succeeds, for every atom index the stored
3x3 tensor equals the transpose of the corresponding input sub-block when
the alternate-layout flag `order = "f"` is set, and the input sub-block
unchanged otherwise. -/
theorem c8_becs_order_layout (arr : List Mat3) (natom : ℕ) (order : String) (b : BecsT)
    (hok : mkBecs arr natom order = Except.ok b) (i : ℕ) :
    (order = "f" → b.becs[i]? = (arr[i]?).map trMat) ∧
    (order ≠ "f" → b.becs[i]? = arr[i]?) := by
  unfold mkBecs at hok
  split at hok
  · cases hok
    constructor
    · intro hf
      subst hf
      simp [List.getElem?_map]
    · intro hf
      simp [List.getElem?_map, hf]
  · cases hok

/-- Witness for C8 at a concrete one-atom block in the alternate layout. -/
theorem c8_becs_order_layout_witness :
    (BecsT.mk 1 [trMat demoMat]).becs[0]? = (([demoMat] : List Mat3)[0]?).map trMat :=
  (c8_becs_order_layout [demoMat] 1 "f" (BecsT.mk 1 [trMat demoMat]) (by rfl) 0).1 rfl

/-- C9: the claim states that `check_sumrule` never raises and only reports
the per-component sum; in the code the computed local is spelled
`becs_atomsum` while the printed name is `bec_atomsum`, so every invocation
raises NameError instead.  This theorem evaluates the embedded code on an
arbitrary tensor object. -/
theorem c9_check_sumrule_raises (b : BecsT) :
    check_sumrule b = Except.error PyErr.nameError := rfl

/-- Witness for C9 at a concrete one-atom zero tensor. -/
theorem c9_check_sumrule_raises_witness :
    check_sumrule (BecsT.mk 1 [zeroMat]) = Except.error PyErr.nameError :=
  c9_check_sumrule_raises (BecsT.mk 1 [zeroMat])

/-! ## Claims about the header parser -/

/-- The new-key branch never changes the `version` local. -/
theorem newKeyBranch_version (st : HeadSt) (k : String) (rest : List String) (st2 : HeadSt)
    (h : newKeyBranch st k rest = Except.ok st2) : st2.version = st.version := by
  unfold newKeyBranch at h
  split at h
  · cases h
  · split at h
    · cases h
      rfl
    · cases h

/-- The key/value line processing never changes the `version` local. -/
theorem headLineKV_version (st : HeadSt) (l : String) (st2 : HeadSt)
    (h : headLineKV st l = Except.ok st2) : st2.version = st.version := by
  simp only [headLineKV] at h
  repeat' split at h
  all_goals
    first
    | (cases h; rfl)
    | exact newKeyBranch_version _ _ _ _ h
    | cases h

/-- When no line of the remaining file contains "Version", the header line
loop either raises or finishes with the `version` local still unbound. -/
theorem headLoop_no_version (ls : List String) :
    ∀ (st : HeadSt) (i : ℕ),
      (∀ l ∈ ls, pyHasSub (pyStrip l) "Version" = false) → st.version = none →
      (∃ e, headLoop st i ls = Except.error e) ∨
      (∃ st2, headLoop st i ls = Except.ok st2 ∧ st2.version = none) := by
  induction ls with
  | nil =>
    intro st i _ hv
    exact Or.inr ⟨st, rfl, hv⟩
  | cons l ls ih =>
    intro st i hno hv
    have hl : pyHasSub (pyStrip l) "Version" = false := hno l (List.mem_cons_self l ls)
    have hno' : ∀ l' ∈ ls, pyHasSub (pyStrip l') "Version" = false :=
      fun l' hl' => hno l' (List.mem_cons_of_mem l hl')
    have hvs : versionStep st (pyStrip l) = Except.ok st := by
      unfold versionStep
      rw [hl]
      simp
    simp only [headLoop, hvs]
    by_cases hb : pyStrip l = ""
    · rw [if_pos hb]
      exact ih st (i + 1) hno' hv
    · rw [if_neg hb]
      by_cases hsent : pyStrip l = sentinel1 ∨ pyStrip l = sentinel2
      · rw [if_pos hsent]
        exact Or.inr ⟨st, rfl, hv⟩
      · rw [if_neg hsent]
        by_cases hi : 6 ≤ i
        · rw [if_pos hi]
          cases hkv : headLineKV st (pyStrip l) with
          | error e => exact Or.inl ⟨e, rfl⟩
          | ok st2 =>
            refine ih st2 (i + 1) hno' ?_
            rw [headLineKV_version st (pyStrip l) st2 hkv]
            exact hv
        · rw [if_neg hi]
          exact ih st (i + 1) hno' hv

/-- C6 counterexample: the claim says a file with no version-declaration
line fails with a ParseError; on the concrete seven-line file with no
"Version" line the parser instead fails with the NameError of the unbound
`version` local at `AttrDict(version=version)`, a different failure kind
from the ValueError raised at the parse sites. -/
theorem c6_counterexample :
    parseHeaderCore demoC6 = Except.error PyErr.nameError ∧
    PyErr.nameError ≠ PyErr.valueError := by
  exact ⟨by rfl, by decide⟩

/-- C6 (amended): for every input file none of whose lines contains the
version marker "Version", header parsing fails — it never returns a header
record; when the line loop itself raises no earlier error, the failure is
the unbound-local NameError at `AttrDict(version=version)`, not a parse
error. -/
theorem c6_missing_version_fails (lines : List String)
    (hno : ∀ l ∈ lines, pyHasSub (pyStrip l) "Version" = false) :
    ∃ e, parseHeaderCore lines = Except.error e := by
  unfold parseHeaderCore
  rcases headLoop_no_version lines ⟨none, []⟩ 0 hno rfl with ⟨e, he⟩ | ⟨st2, h2, hv⟩
  · rw [he]
    exact ⟨e, rfl⟩
  · rw [h2]
    refine ⟨PyErr.nameError, ?_⟩
    dsimp only
    rw [hv]

/-- Witness for C6 (amended) at the concrete version-free file. -/
theorem c6_missing_version_fails_witness :
    ∃ e, parseHeaderCore demoC6 = Except.error e :=
  c6_missing_version_fails demoC6 (by decide)

/-- C5 counterexample: the claim says a key's values are stored as floats
as soon as any of its tokens carries a decimal point; on the concrete file
`demoC5` the key `foo` accumulates the token `1` (line `foo 1`) and the
tokens `2.5 3` (a continuation line whose first token carries a decimal
point), and the stored values mix the integer 1 with the floats 5/2 and 3,
so they are not all floating-point. -/
theorem c5_counterexample :
    parseHeaderCore demoC5 =
      Except.ok ⟨100401, [("foo",
        HVal.arr [PyNum.intv 1, PyNum.floatv (5 / 2), PyNum.floatv 3])]⟩ ∧
    pyHasChar "2.5" '.' = true ∧
    (PyNum.intv 1).isFloat = false := by
  refine ⟨by with_unfolding_all rfl, by rfl, by rfl⟩

/-- C5 (amended): the integer-versus-float decision is made per
contribution line, from that line's first numeric token only: a line whose
first token carries a decimal point stores all its tokens as floats, and a
line whose first token carries no decimal point stores all its tokens as
integers — so a key accumulated over several lines can mix the two. -/
theorem c5_per_line_typing (t0 : String) (rest : List String) (vals : List PyNum)
    (hok : parseRun (t0 :: rest) = Except.ok vals) :
    (pyHasChar t0 '.' = true → ∀ v ∈ vals, v.isFloat = true) ∧
    (pyHasChar t0 '.' = false → ∀ v ∈ vals, v.isInt = true) := by
  simp only [parseRun] at hok
  constructor
  · intro hd v hv
    rcases mapExc_ok_mem _ _ _ hok v hv with ⟨x, _, hfx⟩
    rw [hd] at hfx
    simp only [parseTok, if_pos rfl] at hfx
    cases hx : pyFloatOf x with
    | some q =>
      simp only [hx] at hfx
      cases hfx
      rfl
    | none =>
      simp only [hx] at hfx
      simp at hfx
  · intro hd v hv
    rcases mapExc_ok_mem _ _ _ hok v hv with ⟨x, _, hfx⟩
    rw [hd] at hfx
    simp only [parseTok, Bool.false_eq_true, if_false] at hfx
    cases hx : pyIntOf x with
    | some n =>
      simp only [hx] at hfx
      cases hfx
      rfl
    | none =>
      simp only [hx] at hfx
      simp at hfx

/-- Witness for C5 (amended) at the concrete dot-free line `1 2`. -/
theorem c5_per_line_typing_witness : (PyNum.intv 1).isInt = true :=
  (c5_per_line_typing "1" ["2"] [PyNum.intv 1, PyNum.intv 2] (by rfl)).2 (by rfl)
    (PyNum.intv 1) (by simp)

/-! ## Claims about the q-point extractor -/

/-- Unfolding equation for one step of the q-point scan loop. -/
theorem qptScanGo_cons (seen toks : List String) (l : String) (ls : List String) :
    qptScanGo seen toks (l :: ls) =
      if pyStartsWith (pyStrip l) "qpt" = true ∧ pyStrip l ∉ seen then
        qptScanGo (pyStrip l :: seen) (toks ++ [pyReplace (pyStrip l) "qpt" ""]) ls
      else qptScanGo seen toks ls := by
  simp only [qptScanGo]

/-- The final `seen` set of the q-point scan collects exactly the stripped
lines that start with the marker. -/
theorem qptScanGo_seen_mem (ls : List String) :
    ∀ (seen toks : List String) (t : String),
      t ∈ (qptScanGo seen toks ls).1 ↔
        t ∈ seen ∨ (t ∈ ls.map pyStrip ∧ pyStartsWith t "qpt" = true) := by
  induction ls with
  | nil =>
    intro seen toks t
    simp [qptScanGo]
  | cons l ls ih =>
    intro seen toks t
    by_cases hc : pyStartsWith (pyStrip l) "qpt" = true ∧ pyStrip l ∉ seen
    · rw [qptScanGo_cons, if_pos hc, ih]
      simp only [List.map_cons, List.mem_cons]
      constructor
      · rintro (h | ⟨hm, hs⟩)
        · rcases h with h | h
          · subst h
            exact Or.inr ⟨Or.inl rfl, hc.1⟩
          · exact Or.inl h
        · exact Or.inr ⟨Or.inr hm, hs⟩
      · rintro (h | ⟨hm, hs⟩)
        · exact Or.inl (Or.inr h)
        · rcases hm with hm | hm
          · exact Or.inl (Or.inl hm)
          · exact Or.inr ⟨hm, hs⟩
    · rw [qptScanGo_cons, if_neg hc, ih]
      simp only [List.map_cons, List.mem_cons]
      constructor
      · rintro (h | ⟨hm, hs⟩)
        · exact Or.inl h
        · exact Or.inr ⟨Or.inr hm, hs⟩
      · rintro (h | ⟨hm, hs⟩)
        · exact Or.inl h
        · rcases hm with hm | hm
          · subst hm
            rcases not_and_or.mp hc with h1 | h1
            · exact absurd hs h1
            · exact Or.inl (not_not.mp h1)
          · exact Or.inr ⟨hm, hs⟩

/-- C4 counterexample: the claim says a line is a candidate record if and
only if its first whitespace token is exactly the marker `qpt`; on the
concrete line `qptfoo 1 2 3 4` the first token is `qptfoo`, not `qpt`, yet
the scan records the line as a candidate (prefix match), and the extractor
then fails with ValueError trying to parse `foo` as a float. -/
theorem c4_counterexample :
    qptScan ["qptfoo 1 2 3 4"] = (["qptfoo 1 2 3 4"], ["foo 1 2 3 4"]) ∧
    pySplit (pyStrip "qptfoo 1 2 3 4") = ["qptfoo", "1", "2", "3", "4"] ∧
    "qptfoo" ≠ "qpt" ∧
    readQpoints ["qptfoo 1 2 3 4"] = Except.error PyErr.valueError := by
  refine ⟨by rfl, by rfl, by decide, by rfl⟩

/-- C4 (amended): the extractor treats a line as a candidate record if and
only if the line's stripped text starts with the marker string `qpt` — a
prefix match on the whole stripped line, not an exact match on its first
token — as characterized by the final `seen` set of the scan. -/
theorem c4_candidate_iff (lines : List String) (t : String) :
    t ∈ (qptScan lines).1 ↔ t ∈ lines.map pyStrip ∧ pyStartsWith t "qpt" = true := by
  have h := qptScanGo_seen_mem lines [] [] t
  simpa [qptScan] using h

/-- Witness for C4 (amended) at a concrete marker line. -/
theorem c4_candidate_iff_witness :
    ("qpt 1 2 3 4" ∈ (qptScan ["qpt 1 2 3 4"]).1) ↔
      ("qpt 1 2 3 4" ∈ ["qpt 1 2 3 4"].map pyStrip ∧
        pyStartsWith "qpt 1 2 3 4" "qpt" = true) :=
  c4_candidate_iff ["qpt 1 2 3 4"] "qpt 1 2 3 4"

/-- Filtering by non-membership in the empty set keeps everything. -/
theorem filter_notmem_nil (X : List String) :
    X.filter (fun y => decide (y ∉ ([] : List String))) = X := by
  induction X with
  | nil => rfl
  | cons a X ih => simp [List.filter_cons, ih]

/-- Non-membership in `x :: seen` is non-membership in `seen` composed with
being distinct from `x`. -/
theorem filter_notmem_cons (X : List String) (x : String) (seen : List String) :
    X.filter (fun y => decide (y ∉ x :: seen)) =
      (X.filter (fun y => decide (y ∉ seen))).filter (fun y => decide (y ≠ x)) := by
  induction X with
  | nil => rfl
  | cons a X ih =>
    by_cases h1 : a ∈ seen
    · have h2 : a ∈ x :: seen := List.mem_cons_of_mem x h1
      simp [List.filter_cons, h1, h2, ih]
    · by_cases h2 : a = x
      · subst h2
        simp [List.filter_cons, h1, ih]
      · simp [List.filter_cons, h1, h2, List.mem_cons, ih]

/-- Unfolding equation for the first-seen deduplication. -/
theorem dedupFS_cons (x : String) (xs : List String) :
    dedupFS (x :: xs) = x :: dedupFS (xs.filter (fun y => decide (y ≠ x))) := by
  rw [dedupFS]

/-- The recorded tokens of the q-point scan loop are the first-seen
deduplication of the not-yet-seen candidate lines, each with the marker
text removed. -/
theorem qptScanGo_toks_eq (ls : List String) :
    ∀ (seen toks : List String),
      (qptScanGo seen toks ls).2 =
        toks ++ (dedupFS (((ls.map pyStrip).filter (fun u => pyStartsWith u "qpt")).filter
          (fun u => decide (u ∉ seen)))).map (fun u => pyReplace u "qpt" "") := by
  induction ls with
  | nil =>
    intro seen toks
    simp [qptScanGo, dedupFS]
  | cons l ls ih =>
    intro seen toks
    by_cases hs : pyStartsWith (pyStrip l) "qpt" = true
    · by_cases hm : pyStrip l ∈ seen
      · rw [qptScanGo_cons, if_neg (fun hh => hh.2 hm), ih]
        have hc1 : ((l :: ls).map pyStrip).filter (fun u => pyStartsWith u "qpt")
            = pyStrip l :: (ls.map pyStrip).filter (fun u => pyStartsWith u "qpt") := by
          simp [List.filter_cons, hs]
        rw [hc1]
        have hc2 : (pyStrip l :: (ls.map pyStrip).filter (fun u => pyStartsWith u "qpt")).filter
              (fun u => decide (u ∉ seen))
            = ((ls.map pyStrip).filter (fun u => pyStartsWith u "qpt")).filter
              (fun u => decide (u ∉ seen)) := by
          simp [List.filter_cons, hm]
        rw [hc2]
      · rw [qptScanGo_cons, if_pos ⟨hs, hm⟩, ih]
        have hc1 : ((l :: ls).map pyStrip).filter (fun u => pyStartsWith u "qpt")
            = pyStrip l :: (ls.map pyStrip).filter (fun u => pyStartsWith u "qpt") := by
          simp [List.filter_cons, hs]
        rw [hc1]
        have hc2 : (pyStrip l :: (ls.map pyStrip).filter (fun u => pyStartsWith u "qpt")).filter
              (fun u => decide (u ∉ seen))
            = pyStrip l :: ((ls.map pyStrip).filter (fun u => pyStartsWith u "qpt")).filter
              (fun u => decide (u ∉ seen)) := by
          simp [List.filter_cons, hm]
        rw [hc2, dedupFS_cons, filter_notmem_cons]
        simp [List.append_assoc]
    · rw [qptScanGo_cons, if_neg (fun hh => hs hh.1), ih]
      have hc1 : ((l :: ls).map pyStrip).filter (fun u => pyStartsWith u "qpt")
          = (ls.map pyStrip).filter (fun u => pyStartsWith u "qpt") := by
        simp [List.filter_cons, hs]
      rw [hc1]

/-- C3: the q-point extractor deduplicates candidate records by their raw
stripped text before numeric parsing and preserves first-seen order: the
recorded tokens are the first-seen deduplication of the stripped
marker-prefixed lines (with the marker text removed), so two textually
identical marker lines contribute one entry to the q-point list while two
marker lines differing in any character contribute two, even when
numerically equal. -/
theorem c3_dedup_first_seen (lines : List String) :
    (qptScan lines).2 = (dedupFS (qptCand lines)).map (fun u => pyReplace u "qpt" "") ∧
    ∀ qs, readQpoints lines = Except.ok qs →
      qs.length = (dedupFS (qptCand lines)).length := by
  have h1 : (qptScan lines).2
      = (dedupFS (qptCand lines)).map (fun u => pyReplace u "qpt" "") := by
    have h := qptScanGo_toks_eq lines [] []
    rw [filter_notmem_nil] at h
    simpa [qptScan, qptCand] using h
  refine ⟨h1, ?_⟩
  intro qs hqs
  unfold readQpoints at hqs
  have h2 := mapExc_ok_length parseQline (qptScan lines).2 qs hqs
  rw [h1] at h2
  simpa [List.length_map] using h2

/-- Witness for C3: a file repeating the same marker line twice yields one
q-point, matching the deduplicated candidate count. -/
theorem c3_dedup_first_seen_witness :
    [((1 : ℚ), (2 : ℚ), (3 : ℚ))].length
      = (dedupFS (qptCand ["qpt 1 2 3 4", "qpt 1 2 3 4"])).length :=
  (c3_dedup_first_seen ["qpt 1 2 3 4", "qpt 1 2 3 4"]).2 [((1 : ℚ), (2 : ℚ), (3 : ℚ))]
    (by with_unfolding_all rfl)
